import Mathlib

/-!
# Verification of the `secure-pdf-viewer` React component

A shallow embedding of `src/lib/secure-pdf-viewer/index.tsx` and its
sub-component `PageContent`, together with proofs about the load/reload
lifecycle, the page-visibility tracking with its debounced commit, the
responsive width computation, and the deterrence-overlay event handlers.

React state hooks and refs become fields of an explicit `ViewerState`;
event handlers and effects become state-transition functions; DOM
listener registration becomes an explicit listener list; `setTimeout`
becomes a pending `(page, deadline)` entry fired by an explicit clock.
Visibility ratios and widths are rationals (DOM numbers restricted to
the values the claims involve).
-/

namespace PdfView

/-- The fixed user-facing message set by `onDocumentLoadError`
(index.tsx line 197). -/
def fixedLoadErrorMessage : String :=
  "Failed to load the PDF. Please check if the file exists and try again."

/-- React state and refs of `SecurePdfViewer` (index.tsx lines 34-49):
`numPages`, `isLoading`, `error`, `currentPage` are `useState` values;
`lastPage` is `lastPageRef`, `loadedUrl` is `loadedUrlRef`,
`pageRefsLen` the length of the `pageRefs` array, and `pending` the
`handlePageVisibleTimeoutRef` timeout recorded as (page to commit,
absolute fire deadline).  `commits` is ghost instrumentation counting
executions of the `setTimeout` callback (each is one `setCurrentPage`
commit); it shadows no source variable and influences nothing. -/
structure ViewerState where
  numPages : Nat
  isLoading : Bool
  error : Option String
  currentPage : Nat
  lastPage : Nat
  loadedUrl : Option String
  pageRefsLen : Nat
  pending : Option (Nat × Nat)
  commits : Nat
deriving DecidableEq, Repr

/-- Initial hook values (index.tsx lines 35-46): `numPages 0`,
`isLoading true`, `error null`, `currentPage 1`, `lastPageRef 1`,
`loadedUrlRef null`, empty `pageRefs`, no pending timeout. -/
def initState : ViewerState :=
  { numPages := 0, isLoading := true, error := none, currentPage := 1
  , lastPage := 1, loadedUrl := none, pageRefsLen := 0, pending := none
  , commits := 0 }

/-- `handlePageVisible` (index.tsx lines 50-64): skip if the page equals
`lastPageRef`; otherwise clear any pending timeout, record the page in
`lastPageRef`, and schedule a `setCurrentPage(page)` commit 300 time
units from `now`. -/
def handlePageVisible (now page : Nat) (s : ViewerState) : ViewerState :=
  if s.lastPage = page then s
  else { s with lastPage := page, pending := some (page, now + 300) }

/-- The event-loop firing a due timeout: if the pending commit's deadline
has been reached by `now`, run the `setTimeout` callback
(index.tsx lines 61-63): `setCurrentPage(page)`.  Firing consumes the
timeout and bumps the ghost commit counter. -/
def fireDueTimer (now : Nat) (s : ViewerState) : ViewerState :=
  match s.pending with
  | some (p, d) =>
      if d ≤ now then
        { s with currentPage := p, pending := none, commits := s.commits + 1 }
      else s
  | none => s

/-- The `useEffect` on `fileUrl` (index.tsx lines 178-184): when
`loadedUrlRef.current !== fileUrl`, set `isLoading true`, clear `error`,
and record the new url; otherwise do nothing. -/
def resetOnUrlChange (fileUrl : String) (s : ViewerState) : ViewerState :=
  if s.loadedUrl = some fileUrl then s
  else { s with isLoading := true, error := none, loadedUrl := some fileUrl }

/-- `onDocumentLoadSuccess` (index.tsx lines 186-193): set `numPages`,
drop `isLoading`, clear `error`, reallocate `pageRefs` to the new page
count.  Note: the handler carries no epoch information and applies its
result unconditionally. -/
def onDocumentLoadSuccess (nextNumPages : Nat) (s : ViewerState) : ViewerState :=
  { s with
      numPages := nextNumPages, isLoading := false, error := none,
      pageRefsLen := nextNumPages }

/-- `onDocumentLoadError` (index.tsx lines 195-199): drop `isLoading` and
set the fixed user-facing message.  The raw error argument is only
logged, never surfaced, and the handler throws nothing. -/
def onDocumentLoadError (_rawError : String) (s : ViewerState) : ViewerState :=
  { s with isLoading := false, error := some fixedLoadErrorMessage }

/-- The observable render of the viewer (index.tsx lines 211-290):
the loading indicator shows iff `isLoading && !error` (line 247); the
error panel replaces the `Document` when `error` is set (lines 248-249);
otherwise the `Document` renders `numPages` page slots (line 268); the
header always reads "Page currentPage of numPages" (line 240). -/
structure ViewerRender where
  showLoadingIndicator : Bool
  errorPanel : Option String
  pageSlots : Nat
  headerPage : Nat
  headerTotal : Nat
deriving DecidableEq, Repr

/-- The render function of `SecurePdfViewer`'s returned tree. -/
def renderViewer (s : ViewerState) : ViewerRender :=
  { showLoadingIndicator := s.isLoading && s.error.isNone
  , errorPanel := s.error
  , pageSlots := if s.error.isNone then s.numPages else 0
  , headerPage := s.currentPage
  , headerTotal := s.numPages }

/-- What one rendered page shows: the width passed to the rendering
collaborator's `Page`, and the text of the rotated watermark label. -/
structure PageView where
  renderWidth : ℚ
  watermarkLabel : String
deriving DecidableEq, Repr

/-- `PageContent` (components, lines 6-40): `width` is
`containerWidth ? Math.min(containerWidth, maxWidth) : maxWidth` — the
JavaScript truthiness test makes a width of 0 fall back to `maxWidth`
exactly like an undefined one.  The watermark `div` holds the literal
text `KIITConnect`; the component receives no watermark prop. -/
def PageContent (_pageNumber : Nat) (containerWidth : Option ℚ) (maxWidth : ℚ) :
    PageView :=
  { renderWidth :=
      match containerWidth with
      | some w => if w = 0 then maxWidth else min w maxWidth
      | none => maxWidth
  , watermarkLabel := "KIITConnect" }

/-- The props of `SecurePdfViewer` with their defaults
(index.tsx lines 24-31). -/
structure SecurePdfViewerProps where
  fileUrl : String
  maxWidth : ℚ := 900
  watermarkText : String := "KIITConnect"
  headerTitle : String := "KIITConnect PDF Viewer"
  poweredByText : String := "Powered by KIITConnect © 2024"
  disableSecurity : Bool := false
deriving DecidableEq, Repr

/-- How the viewer instantiates one page slot (index.tsx lines 275-279):
`<PageContent pageNumber={index+1} containerWidth={containerWidth}
maxWidth={maxWidth} />` — `watermarkText` is not among the props passed
down. -/
def renderPage (props : SecurePdfViewerProps) (containerWidth : Option ℚ)
    (pageNumber : Nat) : PageView :=
  PageContent pageNumber containerWidth props.maxWidth

/-- The claim's statement of what the watermark should do, written from
the spec's words ("the semi-transparent rotated text label rendered
above each page displays that configured value"), for comparison with
`renderPage`. -/
def specWatermarkLabel (props : SecurePdfViewerProps) : String :=
  props.watermarkText

/-- C1.  The idempotence half holds: re-running the `fileUrl` effect with
an unchanged url changes nothing.  The stale-discard half fails (see the
counterexample): the amended claim is that the success and error
handlers apply their result to status/pageCount unconditionally — they
carry no epoch guard, so a result for a superseded url is applied, not
discarded. -/
theorem C1_last_load (u : String) (n : Nat) (s t : ViewerState) (e : String)
    (h : s.loadedUrl = some u) :
    resetOnUrlChange u s = s
    ∧ (onDocumentLoadSuccess n t).numPages = n
    ∧ (onDocumentLoadSuccess n t).isLoading = false
    ∧ (onDocumentLoadError e t).error = some fixedLoadErrorMessage
    ∧ (onDocumentLoadError e t).isLoading = false := by
  refine ⟨?_, rfl, rfl, rfl, rfl⟩
  simp [resetOnUrlChange, h]

/-- Witness for C1_last_load at a concrete state. -/
theorem C1_last_load_witness :
    resetOnUrlChange "a" (resetOnUrlChange "a" initState)
      = resetOnUrlChange "a" initState
    ∧ (onDocumentLoadSuccess 7 initState).numPages = 7
    ∧ (onDocumentLoadSuccess 7 initState).isLoading = false
    ∧ (onDocumentLoadError "boom" initState).error = some fixedLoadErrorMessage
    ∧ (onDocumentLoadError "boom" initState).isLoading = false :=
  C1_last_load "a" 7 (resetOnUrlChange "a" initState) initState "boom" (by decide)

/-- C1 counterexample: load "a", supersede it with load "b" (state is
Loading with pageCount 0), then let the stale success for "a" arrive:
the handlers apply it — status becomes Ready (`isLoading = false`) and
`numPages = 5` — instead of discarding it. -/
theorem C1_counterexample :
    (resetOnUrlChange "b" (resetOnUrlChange "a" initState)).isLoading = true
    ∧ (resetOnUrlChange "b" (resetOnUrlChange "a" initState)).numPages = 0
    ∧ (onDocumentLoadSuccess 5
        (resetOnUrlChange "b" (resetOnUrlChange "a" initState))).isLoading = false
    ∧ (onDocumentLoadSuccess 5
        (resetOnUrlChange "b" (resetOnUrlChange "a" initState))).numPages = 5 := by
  decide

/-- C2.  Amended claim: on a change of the configured source url the
effect sets status to Loading and clears `errorDetail`, but the prior
`pageCount` and the page-slot array are carried over unchanged until the
new epoch resolves (nothing resets `numPages` or `pageRefs` on url
change). -/
theorem C2_url_change_reset (u : String) (s : ViewerState)
    (h : s.loadedUrl ≠ some u) :
    (resetOnUrlChange u s).isLoading = true
    ∧ (resetOnUrlChange u s).error = none
    ∧ (resetOnUrlChange u s).loadedUrl = some u
    ∧ (resetOnUrlChange u s).numPages = s.numPages
    ∧ (resetOnUrlChange u s).pageRefsLen = s.pageRefsLen := by
  simp [resetOnUrlChange, h]

/-- Witness for C2_url_change_reset at a concrete state. -/
theorem C2_url_change_reset_witness :
    (resetOnUrlChange "b" initState).isLoading = true
    ∧ (resetOnUrlChange "b" initState).error = none
    ∧ (resetOnUrlChange "b" initState).loadedUrl = some "b"
    ∧ (resetOnUrlChange "b" initState).numPages = initState.numPages
    ∧ (resetOnUrlChange "b" initState).pageRefsLen = initState.pageRefsLen :=
  C2_url_change_reset "b" initState (by decide)

/-- C2 counterexample: after a successful load of "a" with 12 pages, a
change to url "b" leaves `numPages = 12` and twelve page slots in place
— the prior epoch's pageCount is carried over, not discarded. -/
theorem C2_counterexample :
    (resetOnUrlChange "b"
      (onDocumentLoadSuccess 12 (resetOnUrlChange "a" initState))).numPages = 12
    ∧ (resetOnUrlChange "b"
        (onDocumentLoadSuccess 12 (resetOnUrlChange "a" initState))).pageRefsLen = 12
    ∧ (12 : Nat) ≠ 0 := by
  decide

/-- C3.  The code bug: the configured `watermarkText` never reaches the
page — `PageContent` receives no watermark prop and renders the literal
`KIITConnect`, so a viewer configured with watermark "Confidential"
still labels every page "KIITConnect", contradicting the README's
description of the prop. -/
theorem C3_watermark_ignored :
    (renderPage { fileUrl := "a", watermarkText := "Confidential" } none 1).watermarkLabel
      = "KIITConnect"
    ∧ specWatermarkLabel { fileUrl := "a", watermarkText := "Confidential" }
      = "Confidential"
    ∧ "Confidential" ≠ "KIITConnect" := by
  refine ⟨rfl, rfl, by decide⟩

/-- C9.  Amended claim: for a known *nonzero* container width `w` the
render width is `min w m`; a reported width of 0 is falsy in the
JavaScript conditional, so it is treated like an unknown width and the
maximum width is used (see the counterexample); with no measurement the
maximum width is used. -/
theorem C9_render_width (w m : ℚ) (p : Nat) (hw : w ≠ 0) :
    (PageContent p (some w) m).renderWidth = min w m
    ∧ (PageContent p (some 0) m).renderWidth = m
    ∧ (PageContent p none m).renderWidth = m := by
  simp [PageContent, hw]

/-- Witness for C9_render_width: the spec's resize scenario, container
width 400 with maxWidth 900. -/
theorem C9_render_width_witness :
    (PageContent 1 (some 400) 900).renderWidth = min 400 900
    ∧ (PageContent 1 (some 0) 900).renderWidth = 900
    ∧ (PageContent 1 none 900).renderWidth = 900 :=
  C9_render_width 400 900 1 (by decide)

/-- C9 counterexample: a measured container width of 0 (a hidden
container) is a known width, but the render width is 900, not
`min 0 900 = 0` — the truthiness test sends width 0 to the `maxWidth`
branch. -/
theorem C9_counterexample :
    (PageContent 1 (some 0) 900).renderWidth = 900
    ∧ min (0 : ℚ) 900 = 0
    ∧ (900 : ℚ) ≠ 0 := by
  refine ⟨rfl, by decide, by decide⟩

/-- One entry of an `IntersectionObserver` callback batch
(index.tsx lines 76-84), with its target already resolved to the page
number `pageRefs.findIndex(...) + 1` (the observer only observes page
refs, line 97-99). -/
structure ObserverEntry where
  page : Nat
  isIntersecting : Bool
  intersectionRatio : ℚ
deriving DecidableEq, Repr

/-- One iteration of the `entries.forEach` loop (index.tsx lines 76-84):
an intersecting entry whose ratio strictly exceeds the running maximum
becomes the new `(maxVisibility, visiblePage)`. -/
def candidateStep (acc : ℚ × Option Nat) (e : ObserverEntry) : ℚ × Option Nat :=
  if e.isIntersecting ∧ acc.1 < e.intersectionRatio then
    (e.intersectionRatio, some e.page)
  else acc

/-- The whole `forEach` scan starting from `maxVisibility = 0`,
`visiblePage = null` (index.tsx lines 73-84). -/
def selectCandidate (entries : List ObserverEntry) : ℚ × Option Nat :=
  entries.foldl candidateStep (0, none)

/-- The `IntersectionObserver` callback (index.tsx lines 70-89): scan
the batch, and call `handlePageVisible` only when
`visiblePage && maxVisibility > 0.3` (a `visiblePage` of `null` or `0`
is falsy). -/
def observerCallback (now : Nat) (entries : List ObserverEntry)
    (s : ViewerState) : ViewerState :=
  match selectCandidate entries with
  | (maxVisibility, some p) =>
      if p ≠ 0 ∧ mkRat 3 10 < maxVisibility then handlePageVisible now p s else s
  | (_, none) => s

/-- Fold invariant of the candidate scan: the result is the start
accumulator or the data of some intersecting entry; the running maximum
never decreases; and every intersecting entry's ratio is bounded by the
final maximum. -/
theorem candidateRun_spec (entries : List ObserverEntry) (acc : ℚ × Option Nat) :
    (entries.foldl candidateStep acc = acc
      ∨ ∃ e ∈ entries, e.isIntersecting = true
          ∧ entries.foldl candidateStep acc = (e.intersectionRatio, some e.page))
    ∧ acc.1 ≤ (entries.foldl candidateStep acc).1
    ∧ ∀ e ∈ entries, e.isIntersecting = true →
        e.intersectionRatio ≤ (entries.foldl candidateStep acc).1 := by
  induction entries generalizing acc with
  | nil => simp
  | cons a l ih =>
    by_cases hcond : a.isIntersecting ∧ acc.1 < a.intersectionRatio
    · have hstep : candidateStep acc a = (a.intersectionRatio, some a.page) := by
        simp [candidateStep, hcond]
      rw [List.foldl_cons, hstep]
      rcases ih (a.intersectionRatio, some a.page) with ⟨hcase, hmono, hbound⟩
      refine ⟨?_, ?_, ?_⟩
      · rcases hcase with h | ⟨e, he, hi, hres⟩
        · exact Or.inr ⟨a, List.mem_cons_self a l, hcond.1, h⟩
        · exact Or.inr ⟨e, List.mem_cons_of_mem a he, hi, hres⟩
      · exact le_trans (le_of_lt hcond.2) hmono
      · intro e he hi
        rcases List.mem_cons.mp he with rfl | he
        · exact hmono
        · exact hbound e he hi
    · have hstep : candidateStep acc a = acc := by
        simp only [candidateStep, if_neg hcond]
      rw [List.foldl_cons, hstep]
      rcases ih acc with ⟨hcase, hmono, hbound⟩
      refine ⟨?_, hmono, ?_⟩
      · rcases hcase with h | ⟨e, he, hi, hres⟩
        · exact Or.inl h
        · exact Or.inr ⟨e, List.mem_cons_of_mem a he, hi, hres⟩
      · intro e he hi
        rcases List.mem_cons.mp he with rfl | he
        · have : ¬ acc.1 < e.intersectionRatio := fun hlt => hcond ⟨hi, hlt⟩
          exact le_trans (le_of_not_lt this) hmono
        · exact hbound e he hi

/-- When the scan produces a page, that page comes from an intersecting
entry whose ratio is the final maximum, dominating every intersecting
entry of the batch. -/
theorem selectCandidate_some (entries : List ObserverEntry) (p : Nat)
    (h : (selectCandidate entries).2 = some p) :
    ∃ e ∈ entries, e.isIntersecting = true ∧ e.page = p
      ∧ e.intersectionRatio = (selectCandidate entries).1
      ∧ ∀ e₂ ∈ entries, e₂.isIntersecting = true →
          e₂.intersectionRatio ≤ e.intersectionRatio := by
  rcases candidateRun_spec entries (0, none) with ⟨hcase, _, hbound⟩
  rcases hcase with hacc | ⟨e, he, hi, hres⟩
  · rw [show selectCandidate entries = entries.foldl candidateStep (0, none) from rfl,
      hacc] at h
    simp at h
  · refine ⟨e, he, hi, ?_, ?_, ?_⟩
    · have : (selectCandidate entries).2 = some e.page := by
        rw [show selectCandidate entries = entries.foldl candidateStep (0, none) from rfl,
          hres]
      rw [this] at h
      exact (Option.some.injEq _ _ ▸ h).symm ▸ rfl
    · rw [show selectCandidate entries = entries.foldl candidateStep (0, none) from rfl,
        hres]
    · intro e₂ he₂ hi₂
      have := hbound e₂ he₂ hi₂
      rw [show entries.foldl candidateStep (0, none) = selectCandidate entries from rfl,
        show selectCandidate entries = entries.foldl candidateStep (0, none) from rfl,
        hres] at this
      exact this

/-- C6.  At each observation batch, a selected candidate is an
intersecting entry of the batch whose ratio equals the batch maximum and
dominates every intersecting entry; and if no intersecting entry's ratio
exceeds 0.3 (= `mkRat 3 10`), the callback leaves the whole state — in
particular the last reported page — unchanged. -/
theorem C6_most_visible (now : Nat) (entries : List ObserverEntry) (s : ViewerState) :
    (∀ p : Nat, (selectCandidate entries).2 = some p →
      ∃ e ∈ entries, e.isIntersecting = true ∧ e.page = p
        ∧ e.intersectionRatio = (selectCandidate entries).1
        ∧ ∀ e₂ ∈ entries, e₂.isIntersecting = true →
            e₂.intersectionRatio ≤ e.intersectionRatio)
    ∧ ((∀ e ∈ entries, e.isIntersecting = true → e.intersectionRatio ≤ mkRat 3 10) →
        observerCallback now entries s = s) := by
  constructor
  · intro p hp
    exact selectCandidate_some entries p hp
  · intro hlow
    unfold observerCallback
    rcases hsel : selectCandidate entries with ⟨m, o⟩
    rcases o with _ | p
    · rfl
    · have hsome : (selectCandidate entries).2 = some p := by rw [hsel]
      rcases selectCandidate_some entries p hsome with ⟨e, he, hi, _, hratio, _⟩
      have h₁ : e.intersectionRatio ≤ mkRat 3 10 := hlow e he hi
      have h₂ : (selectCandidate entries).1 = m := by rw [hsel]
      rw [h₂] at hratio
      have : ¬ (p ≠ 0 ∧ mkRat 3 10 < m) := by
        rintro ⟨-, hgt⟩
        rw [← hratio] at hgt
        exact absurd h₁ (not_le_of_lt hgt)
      show (if p ≠ 0 ∧ mkRat 3 10 < m then handlePageVisible now p s else s) = s
      rw [if_neg this]

/-- Witness for C6_most_visible: a batch where page 2 at ratio 9/10
beats page 1 at 2/10, and a batch whose only intersecting entry is at
1/10 and changes nothing. -/
theorem C6_most_visible_witness :
    (∃ e ∈ [ObserverEntry.mk 1 true (mkRat 2 10), ObserverEntry.mk 2 true (mkRat 9 10)],
      e.isIntersecting = true ∧ e.page = 2
        ∧ e.intersectionRatio
          = (selectCandidate
              [ObserverEntry.mk 1 true (mkRat 2 10),
                ObserverEntry.mk 2 true (mkRat 9 10)]).1
        ∧ ∀ e₂ ∈ [ObserverEntry.mk 1 true (mkRat 2 10),
            ObserverEntry.mk 2 true (mkRat 9 10)], e₂.isIntersecting = true →
            e₂.intersectionRatio ≤ e.intersectionRatio)
    ∧ observerCallback 0 [ObserverEntry.mk 1 true (mkRat 1 10)] initState = initState :=
  ⟨(C6_most_visible 0 [ObserverEntry.mk 1 true (mkRat 2 10),
      ObserverEntry.mk 2 true (mkRat 9 10)] initState).1 2 (by decide),
    (C6_most_visible 0 [ObserverEntry.mk 1 true (mkRat 1 10)] initState).2 (by decide)⟩

/-- One event-loop turn delivering an observer batch at time `b.1`: any
due commit timeout fires first, then the callback runs on the batch
`b.2`. -/
def stepBatch (s : ViewerState) (b : Nat × List ObserverEntry) : ViewerState :=
  observerCallback b.1 b.2 (fireDueTimer b.1 s)

/-- A whole session of observer batches, in time order. -/
def runBatches (s : ViewerState) (bs : List (Nat × List ObserverEntry)) :
    ViewerState :=
  bs.foldl stepBatch s

/-- `p` was the scan winner of some batch in `bs` with a ratio strictly
above the 0.3 significance threshold at that batch. -/
def StrongIn (bs : List (Nat × List ObserverEntry)) (p : Nat) : Prop :=
  ∃ b ∈ bs, (selectCandidate b.2).2 = some p
    ∧ mkRat 3 10 < (selectCandidate b.2).1

/-- Pages the state can mention: the current page and any pending commit
are the sticky default 1 or satisfy `A`. -/
def TrackedPages (A : Nat → Prop) (s : ViewerState) : Prop :=
  (s.currentPage = 1 ∨ A s.currentPage)
  ∧ ∀ p d, s.pending = some (p, d) → (p = 1 ∨ A p)

theorem TrackedPages.mono {A B : Nat → Prop} {s : ViewerState}
    (h : TrackedPages A s) (hAB : ∀ p, A p → B p) : TrackedPages B s := by
  refine ⟨h.1.imp id (hAB _), fun p d hp => (h.2 p d hp).imp id (hAB _)⟩

theorem TrackedPages.fireDueTimer {A : Nat → Prop} {s : ViewerState}
    (h : TrackedPages A s) (now : Nat) :
    TrackedPages A (fireDueTimer now s) := by
  unfold PdfView.fireDueTimer
  rcases hp : s.pending with _ | ⟨p, d⟩
  · exact h
  · show TrackedPages A
      (if d ≤ now then
        { s with currentPage := p, pending := none, commits := s.commits + 1 }
      else s)
    by_cases hd : d ≤ now
    · rw [if_pos hd]
      exact ⟨h.2 p d hp, by intro q e hq; simp at hq⟩
    · rw [if_neg hd]
      exact h

theorem TrackedPages.handlePageVisible {A : Nat → Prop} {s : ViewerState}
    (h : TrackedPages A s) (now p : Nat) (hp : p = 1 ∨ A p) :
    TrackedPages A (handlePageVisible now p s) := by
  unfold PdfView.handlePageVisible
  by_cases hl : s.lastPage = p
  · rw [if_pos hl]; exact h
  · rw [if_neg hl]
    refine ⟨h.1, ?_⟩
    intro q e hq
    simp only [Option.some.injEq, Prod.mk.injEq] at hq
    rcases hq with ⟨rfl, -⟩
    exact hp

theorem TrackedPages.stepBatch {A : Nat → Prop} {s : ViewerState}
    (h : TrackedPages A s) (b : Nat × List ObserverEntry) :
    TrackedPages
      (fun q => A q ∨ ((selectCandidate b.2).2 = some q
        ∧ mkRat 3 10 < (selectCandidate b.2).1))
      (stepBatch s b) := by
  have h₁ := h.fireDueTimer b.1
  unfold PdfView.stepBatch observerCallback
  rcases hsel : selectCandidate b.2 with ⟨m, o⟩
  rcases o with _ | p
  · exact h₁.mono fun q hq => Or.inl hq
  · show TrackedPages _
      (if p ≠ 0 ∧ mkRat 3 10 < m then
        PdfView.handlePageVisible b.1 p (PdfView.fireDueTimer b.1 s)
      else PdfView.fireDueTimer b.1 s)
    by_cases hc : p ≠ 0 ∧ mkRat 3 10 < m
    · rw [if_pos hc]
      have h₂ : TrackedPages
          (fun q => A q ∨ ((m, some p).2 = some q ∧ mkRat 3 10 < (m, some p).1))
          (PdfView.fireDueTimer b.1 s) :=
        h₁.mono fun q hq => Or.inl hq
      exact h₂.handlePageVisible b.1 p (Or.inr (Or.inr ⟨rfl, hc.2⟩))
    · rw [if_neg hc]
      exact h₁.mono fun q hq => Or.inl hq

theorem TrackedPages.runBatches {A : Nat → Prop} {s : ViewerState}
    (h : TrackedPages A s) (bs : List (Nat × List ObserverEntry)) :
    TrackedPages (fun q => A q ∨ StrongIn bs q) (runBatches s bs) := by
  induction bs generalizing A s with
  | nil =>
    exact h.mono fun q hq => Or.inl hq
  | cons b bs ih =>
    show TrackedPages _ (PdfView.runBatches (PdfView.stepBatch s b) bs)
    refine (ih (h.stepBatch b)).mono ?_
    intro q hq
    rcases hq with (hq | hstrong) | ⟨b₂, hb₂, hs₂⟩
    · exact Or.inl hq
    · exact Or.inr ⟨b, List.mem_cons_self b bs, hstrong⟩
    · exact Or.inr ⟨b₂, List.mem_cons_of_mem b hb₂, hs₂⟩

/-- The most recent ratio a batch reports for page `p`. -/
def ratioInBatch (p : Nat) (entries : List ObserverEntry) : Option ℚ :=
  (entries.find? (fun e => e.page == p)).map (fun e => e.intersectionRatio)

/-- C5.  Amended claim: after any sequence of observation batches (and a
final firing of any due commit timeout), the reported current page is
either the sticky default 1 — in particular whenever no page's ratio
ever exceeded 0.3 — or it was, at the observation batch that selected
it, the highest-ratio intersecting page with ratio strictly above 0.3.
The threshold is checked at selection time, not at commit time: the
counterexample shows a commit of a page whose ratio had dropped to 1/10
by the latest batch before the commit. -/
theorem C5_commit_threshold (bs : List (Nat × List ObserverEntry)) (tEnd : Nat) :
    (fireDueTimer tEnd (runBatches initState bs)).currentPage = 1
    ∨ ∃ b ∈ bs, ∃ e ∈ b.2, e.isIntersecting = true
        ∧ e.page = (fireDueTimer tEnd (runBatches initState bs)).currentPage
        ∧ mkRat 3 10 < e.intersectionRatio
        ∧ ∀ e₂ ∈ b.2, e₂.isIntersecting = true →
            e₂.intersectionRatio ≤ e.intersectionRatio := by
  have h₀ : TrackedPages (fun _ => False) initState := by
    refine ⟨Or.inl rfl, ?_⟩
    intro p d hp
    simp [initState] at hp
  have h₁ := (h₀.runBatches bs).fireDueTimer tEnd
  rcases h₁.1 with hone | hfalse | ⟨b, hb, hsel, hgt⟩
  · exact Or.inl hone
  · exact absurd hfalse not_false
  · rcases selectCandidate_some b.2 _ hsel with ⟨e, he, hi, hpage, hratio, hmax⟩
    exact Or.inr ⟨b, hb, e, he, hi, hpage, by rw [hratio]; exact hgt, hmax⟩

/-- Witness for C5_commit_threshold on a concrete session: one batch
where page 2 is 90% visible, settled at time 500. -/
theorem C5_commit_threshold_witness :
    (fireDueTimer 500 (runBatches initState
        [(0, [ObserverEntry.mk 2 true (mkRat 9 10)])])).currentPage = 1
    ∨ ∃ b ∈ [((0 : Nat), [ObserverEntry.mk 2 true (mkRat 9 10)])],
        ∃ e ∈ b.2, e.isIntersecting = true
        ∧ e.page = (fireDueTimer 500 (runBatches initState
            [(0, [ObserverEntry.mk 2 true (mkRat 9 10)])])).currentPage
        ∧ mkRat 3 10 < e.intersectionRatio
        ∧ ∀ e₂ ∈ b.2, e₂.isIntersecting = true →
            e₂.intersectionRatio ≤ e.intersectionRatio :=
  C5_commit_threshold [(0, [ObserverEntry.mk 2 true (mkRat 9 10)])] 500

/-- C5 counterexample.  Batch at t=0: page 2 at ratio 1/2 is selected
(above 0.3) and a commit is scheduled for t=300.  Batch at t=100: page 2
has dropped to 1/10 and page 3 is at 1/5 — nobody exceeds 0.3, so
nothing cancels the pending commit.  At t=300 the timer fires and page 2
is committed, although its ratio at commit time (its latest observation,
1/10) is 0.3 or below, and some page did exceed 0.3 earlier, so the
sticky-default clause does not apply.  The claim's "never a page whose
visibility ratio was 0.3 or below at commit time" is false. -/
theorem C5_counterexample :
    (fireDueTimer 300 (runBatches initState
        [ (0, [ObserverEntry.mk 2 true (mkRat 1 2)])
        , (100, [ObserverEntry.mk 2 true (mkRat 1 10),
            ObserverEntry.mk 3 true (mkRat 1 5)]) ])).currentPage = 2
    ∧ ratioInBatch 2 [ObserverEntry.mk 2 true (mkRat 1 10),
        ObserverEntry.mk 3 true (mkRat 1 5)] = some (mkRat 1 10)
    ∧ ¬ (mkRat 3 10 < mkRat 1 10)
    ∧ mkRat 3 10 < mkRat 1 2 := by
  decide

/-- One event-loop turn delivering a visibility candidate `e.2` at time
`e.1`: any due commit timeout fires first, then `handlePageVisible`
runs. -/
def stepCandidate (s : ViewerState) (e : Nat × Nat) : ViewerState :=
  handlePageVisible e.1 e.2 (fireDueTimer e.1 s)

/-- A sequence of timed visibility candidates, in time order. -/
def runCandidates (s : ViewerState) (es : List (Nat × Nat)) : ViewerState :=
  es.foldl stepCandidate s

/-- The last of the events `e :: es`. -/
def lastEvent (e : Nat × Nat) : List (Nat × Nat) → Nat × Nat
  | [] => e
  | e₂ :: es => lastEvent e₂ es

/-- Starting after an event for page `p₀` at time `t₀`: events have
strictly increasing times, each arrives within the 300-unit window
opened by its predecessor, and each candidate page differs from its
predecessor. -/
def eventChain : Nat → Nat → List (Nat × Nat) → Prop
  | _, _, [] => True
  | t₀, p₀, (t, p) :: es => t₀ < t ∧ t < t₀ + 300 ∧ p ≠ p₀ ∧ eventChain t p es

/-- Running a chain of candidates from a state holding a pending commit
for the chain's predecessor only retargets the pending commit and the
`lastPageRef`: each event finds the previous timeout not yet due,
cancels it, and schedules its own. -/
theorem runCandidates_chain (es : List (Nat × Nat)) (t₀ p₀ : Nat)
    (s : ViewerState) (hpend : s.pending = some (p₀, t₀ + 300))
    (hlast : s.lastPage = p₀) (hchain : eventChain t₀ p₀ es) :
    runCandidates s es =
      { s with
          lastPage := (lastEvent (t₀, p₀) es).2,
          pending := some ((lastEvent (t₀, p₀) es).2, (lastEvent (t₀, p₀) es).1 + 300) } := by
  induction es generalizing t₀ p₀ s with
  | nil =>
    show s = { s with lastPage := p₀, pending := some (p₀, t₀ + 300) }
    rw [← hpend, ← hlast]
  | cons e es ih =>
    obtain ⟨t, p⟩ := e
    obtain ⟨h₁, h₂, h₃, hrest⟩ := hchain
    have hfire : fireDueTimer t s = s := by
      unfold fireDueTimer
      rw [hpend]
      show (if t₀ + 300 ≤ t then _ else s) = s
      rw [if_neg (by omega)]
    have hstep : stepCandidate s (t, p) =
        { s with lastPage := p, pending := some (p, t + 300) } := by
      show handlePageVisible t p (fireDueTimer t s) = _
      rw [hfire]
      unfold handlePageVisible
      rw [hlast, if_neg (fun h => h₃ h.symm)]
    show runCandidates (stepCandidate s (t, p)) es = _
    rw [hstep]
    exact ih t p _ rfl rfl hrest

/-- C4.  Within one quiet window — each candidate arriving before the
previous 300-unit timer expires — a chain of pairwise-consecutive
distinct candidates (the first differing from the already-processed
`lastPageRef`; a candidate equal to it is skipped by the handler's
same-page guard) produces no commit during the chain, leaves exactly one
pending commit carrying the last candidate, and when the quiet period
elapses that single commit fires, setting the current page to the last
candidate: commits go up by exactly one over the whole window. -/
theorem C4_debounce_commit (s : ViewerState) (t₁ p₁ : Nat)
    (es : List (Nat × Nat)) (hpend : s.pending = none)
    (hp₁ : p₁ ≠ s.lastPage) (hchain : eventChain t₁ p₁ es) :
    (runCandidates s ((t₁, p₁) :: es)).commits = s.commits
    ∧ (runCandidates s ((t₁, p₁) :: es)).currentPage = s.currentPage
    ∧ (runCandidates s ((t₁, p₁) :: es)).pending
        = some ((lastEvent (t₁, p₁) es).2, (lastEvent (t₁, p₁) es).1 + 300)
    ∧ (fireDueTimer ((lastEvent (t₁, p₁) es).1 + 300)
        (runCandidates s ((t₁, p₁) :: es))).currentPage = (lastEvent (t₁, p₁) es).2
    ∧ (fireDueTimer ((lastEvent (t₁, p₁) es).1 + 300)
        (runCandidates s ((t₁, p₁) :: es))).commits = s.commits + 1 := by
  have hfire : fireDueTimer t₁ s = s := by
    unfold fireDueTimer
    rw [hpend]
  have hstep : stepCandidate s (t₁, p₁) =
      { s with lastPage := p₁, pending := some (p₁, t₁ + 300) } := by
    show handlePageVisible t₁ p₁ (fireDueTimer t₁ s) = _
    rw [hfire]
    unfold handlePageVisible
    rw [if_neg (fun h => hp₁ h.symm)]
  have hrun : runCandidates s ((t₁, p₁) :: es) =
      { s with
          lastPage := (lastEvent (t₁, p₁) es).2,
          pending := some ((lastEvent (t₁, p₁) es).2, (lastEvent (t₁, p₁) es).1 + 300) } := by
    show runCandidates (stepCandidate s (t₁, p₁)) es = _
    rw [hstep]
    exact runCandidates_chain es t₁ p₁ _ rfl rfl hchain
  rw [hrun]
  refine ⟨rfl, rfl, rfl, ?_, ?_⟩ <;> simp [fireDueTimer]

/-- Witness for C4_debounce_commit: candidates 2, 3, 4 at times 10, 100,
250, each within 300 units of the previous; the single commit carries
the last candidate, page 4, at time 550. -/
theorem C4_debounce_commit_witness :
    (runCandidates initState [(10, 2), (100, 3), (250, 4)]).commits = initState.commits
    ∧ (runCandidates initState [(10, 2), (100, 3), (250, 4)]).currentPage
        = initState.currentPage
    ∧ (runCandidates initState [(10, 2), (100, 3), (250, 4)]).pending
        = some ((lastEvent (10, 2) [(100, 3), (250, 4)]).2,
            (lastEvent (10, 2) [(100, 3), (250, 4)]).1 + 300)
    ∧ (fireDueTimer ((lastEvent (10, 2) [(100, 3), (250, 4)]).1 + 300)
        (runCandidates initState [(10, 2), (100, 3), (250, 4)])).currentPage
        = (lastEvent (10, 2) [(100, 3), (250, 4)]).2
    ∧ (fireDueTimer ((lastEvent (10, 2) [(100, 3), (250, 4)]).1 + 300)
        (runCandidates initState [(10, 2), (100, 3), (250, 4)])).commits
        = initState.commits + 1 :=
  C4_debounce_commit initState 10 2 [(100, 3), (250, 4)] rfl (by decide)
    (by simp [eventChain])

/-- C8.  A load failure surfaces the fixed user-facing message
independently of the raw error, renders zero page slots while the error
panel shows, changes no epoch state (no automatic retry: the handler
only sets display state), and a subsequent load with a new url clears
the error and shows the loading placeholder immediately. -/
theorem C8_load_failure (e e₂ u : String) (s : ViewerState)
    (hu : s.loadedUrl ≠ some u) :
    (onDocumentLoadError e s).error = some fixedLoadErrorMessage
    ∧ onDocumentLoadError e s = onDocumentLoadError e₂ s
    ∧ (renderViewer (onDocumentLoadError e s)).pageSlots = 0
    ∧ (renderViewer (onDocumentLoadError e s)).errorPanel = some fixedLoadErrorMessage
    ∧ (onDocumentLoadError e s).loadedUrl = s.loadedUrl
    ∧ (onDocumentLoadError e s).isLoading = false
    ∧ (resetOnUrlChange u (onDocumentLoadError e s)).error = none
    ∧ (resetOnUrlChange u (onDocumentLoadError e s)).isLoading = true
    ∧ (renderViewer (resetOnUrlChange u
        (onDocumentLoadError e s))).showLoadingIndicator = true := by
  refine ⟨rfl, rfl, rfl, rfl, rfl, rfl, ?_, ?_, ?_⟩ <;>
    simp [onDocumentLoadError, resetOnUrlChange, renderViewer, hu]

/-- Witness for C8_load_failure: failure on the initial state, then a
load of url "b". -/
theorem C8_load_failure_witness :
    (onDocumentLoadError "net" initState).error = some fixedLoadErrorMessage
    ∧ onDocumentLoadError "net" initState = onDocumentLoadError "decode" initState
    ∧ (renderViewer (onDocumentLoadError "net" initState)).pageSlots = 0
    ∧ (renderViewer (onDocumentLoadError "net" initState)).errorPanel
        = some fixedLoadErrorMessage
    ∧ (onDocumentLoadError "net" initState).loadedUrl = initState.loadedUrl
    ∧ (onDocumentLoadError "net" initState).isLoading = false
    ∧ (resetOnUrlChange "b" (onDocumentLoadError "net" initState)).error = none
    ∧ (resetOnUrlChange "b" (onDocumentLoadError "net" initState)).isLoading = true
    ∧ (renderViewer (resetOnUrlChange "b"
        (onDocumentLoadError "net" initState))).showLoadingIndicator = true :=
  C8_load_failure "net" "decode" "b" initState (by decide)

/-- A registered document-level event listener: event type, an identity
for the handler closure, and the capture flag.  Every listener the
security effect registers uses `capture = true` (index.tsx
lines 148-156). -/
structure DomListener where
  eventType : String
  handlerId : Nat
  capture : Bool
deriving DecidableEq, Repr

/-- `document.addEventListener`: registering an identical
(type, handler, capture) triple twice is a no-op. -/
def addEventListener (d : List DomListener) (l : DomListener) : List DomListener :=
  if l ∈ d then d else d ++ [l]

/-- `document.removeEventListener`: drops the matching triple. -/
def removeEventListener (d : List DomListener) (l : DomListener) : List DomListener :=
  d.filter (fun x => x ≠ l)

/-- The nine capturing-phase listeners the security effect installs
(index.tsx lines 148-156): eight event types share the one
`preventDefaultHandler` closure and `keydown` gets `handleKeyDown`. -/
def securityListeners (pid kid : Nat) : List DomListener :=
  [ ⟨"contextmenu", pid, true⟩
  , ⟨"keydown", kid, true⟩
  , ⟨"dragstart", pid, true⟩
  , ⟨"drop", pid, true⟩
  , ⟨"copy", pid, true⟩
  , ⟨"cut", pid, true⟩
  , ⟨"paste", pid, true⟩
  , ⟨"selectstart", pid, true⟩
  , ⟨"mousedown", pid, true⟩ ]

/-- The security `useEffect` body (index.tsx lines 128-156): an early
return when `disableSecurity` is set, otherwise registration of the nine
listeners in order. -/
def installSecurity (disableSecurity : Bool) (pid kid : Nat)
    (d : List DomListener) : List DomListener :=
  if disableSecurity then d
  else (securityListeners pid kid).foldl addEventListener d

/-- The security effect's cleanup (index.tsx lines 158-168): removal of
the same nine listeners. -/
def removeSecurity (pid kid : Nat) (d : List DomListener) : List DomListener :=
  (securityListeners pid kid).foldl removeEventListener d

/-- An event of the given type is suppressed by the deterrence overlay
when one of the overlay's own cancelling listeners for that type is
registered on the document. -/
def suppressedBySecurity (pid kid : Nat) (evt : String)
    (d : List DomListener) : Prop :=
  ∃ l ∈ d, l ∈ securityListeners pid kid ∧ l.eventType = evt

theorem securityListeners_nodup (pid kid : Nat) :
    (securityListeners pid kid).Nodup := by
  simp [securityListeners]

theorem foldl_add_eq_append (L : List DomListener) (d : List DomListener)
    (hfresh : ∀ l ∈ L, l ∉ d) (hnd : L.Nodup) :
    L.foldl addEventListener d = d ++ L := by
  induction L generalizing d with
  | nil => simp
  | cons a L ih =>
    rw [List.foldl_cons]
    have ha : addEventListener d a = d ++ [a] := by
      rw [addEventListener, if_neg (hfresh a (List.mem_cons_self a L))]
    rw [ha, ih (d ++ [a]) ?_ (List.Nodup.of_cons hnd)]
    · rw [List.append_assoc, List.singleton_append]
    · intro l hl
      rw [List.mem_append, List.mem_singleton]
      rintro (hd | rfl)
      · exact hfresh l (List.mem_cons_of_mem a hl) hd
      · exact (List.nodup_cons.mp hnd).1 hl

theorem foldl_remove_append (L : List DomListener) (d : List DomListener)
    (hfresh : ∀ x ∈ d, x ∉ L) (hnd : L.Nodup) :
    L.foldl removeEventListener (d ++ L) = d := by
  induction L generalizing d with
  | nil => simp
  | cons a L ih =>
    rw [List.foldl_cons]
    have hstep : removeEventListener (d ++ a :: L) a = d ++ L := by
      rw [removeEventListener, List.filter_append]
      have hd : d.filter (fun x => x ≠ a) = d := by
        refine List.filter_eq_self.mpr fun x hx => ?_
        simpa using fun h : x = a =>
          hfresh x hx (h ▸ List.mem_cons_self a L)
      have hl : (a :: L).filter (fun x => x ≠ a) = L := by
        rw [List.filter_cons_of_neg (by simp)]
        refine List.filter_eq_self.mpr fun x hx => ?_
        simpa using fun h : x = a => (List.nodup_cons.mp hnd).1 (h ▸ hx)
      rw [hd, hl]
    rw [hstep]
    refine ih d ?_ (List.Nodup.of_cons hnd)
    exact fun x hx hxL => hfresh x hx (List.mem_cons_of_mem a hxL)

/-- C7.  With fresh handler closures, activation registers exactly the
nine capturing listeners; deactivation removes exactly those and
restores the document's listener list to precisely its prior state, so
afterwards no event type — context menu and copy included — is
suppressed by the overlay; and with the opt-out flag set, activation
registers nothing at all. -/
theorem C7_security_handlers (pid kid : Nat) (d : List DomListener)
    (hfresh : ∀ l ∈ securityListeners pid kid, l ∉ d) :
    installSecurity false pid kid d = d ++ securityListeners pid kid
    ∧ suppressedBySecurity pid kid "contextmenu" (installSecurity false pid kid d)
    ∧ suppressedBySecurity pid kid "copy" (installSecurity false pid kid d)
    ∧ removeSecurity pid kid (installSecurity false pid kid d) = d
    ∧ (∀ evt, ¬ suppressedBySecurity pid kid evt
        (removeSecurity pid kid (installSecurity false pid kid d)))
    ∧ installSecurity true pid kid d = d := by
  have hinst : installSecurity false pid kid d = d ++ securityListeners pid kid := by
    rw [installSecurity, if_neg (by simp)]
    exact foldl_add_eq_append _ d hfresh (securityListeners_nodup pid kid)
  have hrem : removeSecurity pid kid (installSecurity false pid kid d) = d := by
    rw [hinst, removeSecurity]
    refine foldl_remove_append _ d ?_ (securityListeners_nodup pid kid)
    exact fun x hx hxL => hfresh x hxL hx
  refine ⟨hinst, ?_, ?_, hrem, ?_, ?_⟩
  · refine ⟨⟨"contextmenu", pid, true⟩, ?_, by simp [securityListeners], rfl⟩
    rw [hinst]
    exact List.mem_append_right d (by simp [securityListeners])
  · refine ⟨⟨"copy", pid, true⟩, ?_, by simp [securityListeners], rfl⟩
    rw [hinst]
    exact List.mem_append_right d (by simp [securityListeners])
  · intro evt
    rw [hrem]
    rintro ⟨l, hld, hlsec, -⟩
    exact hfresh l hlsec hld
  · rw [installSecurity, if_pos rfl]

/-- Witness for C7_security_handlers on an initially empty listener
list with handler ids 0 and 1. -/
theorem C7_security_handlers_witness :
    installSecurity false 0 1 [] = [] ++ securityListeners 0 1
    ∧ suppressedBySecurity 0 1 "contextmenu" (installSecurity false 0 1 [])
    ∧ suppressedBySecurity 0 1 "copy" (installSecurity false 0 1 [])
    ∧ removeSecurity 0 1 (installSecurity false 0 1 []) = []
    ∧ (∀ evt, ¬ suppressedBySecurity 0 1 evt
        (removeSecurity 0 1 (installSecurity false 0 1 [])))
    ∧ installSecurity true 0 1 [] = [] :=
  C7_security_handlers 0 1 [] (by decide)

/-- The security effect's cleanup also clears any pending visibility
commit timeout (index.tsx lines 170-173). -/
def securityEffectCleanup (pid kid : Nat) (s : ViewerState)
    (d : List DomListener) : ViewerState × List DomListener :=
  ({ s with pending := none }, removeSecurity pid kid d)

/-- Component teardown, restricted to the state this model tracks: the
security effect registered its cleanup only when `disableSecurity` was
false (the effect returns early at index.tsx line 129, registering no
cleanup), so only then does teardown clear the pending timeout and the
listeners.  The intersection-observer effect's own cleanup merely
disconnects the observer and never touches the timeout. -/
def teardown (disableSecurity : Bool) (pid kid : Nat) (s : ViewerState)
    (d : List DomListener) : ViewerState × List DomListener :=
  if disableSecurity then (s, d) else securityEffectCleanup pid kid s d

/-- C10.  With a commit timeout pending, teardown cancels it exactly
when `disableSecurity` is false: the `clearTimeout` lives in the
security effect's cleanup, and that cleanup does not exist when the
effect returned early. -/
theorem C10_teardown_timer (b : Bool) (pid kid p dl : Nat) (s : ViewerState)
    (d : List DomListener) (hp : s.pending = some (p, dl)) :
    ((teardown b pid kid s d).1.pending = none ↔ b = false) := by
  cases b <;> simp [teardown, securityEffectCleanup, hp]

/-- Witness for C10_teardown_timer: with security disabled, a pending
commit scheduled for time 300 survives teardown. -/
theorem C10_teardown_timer_witness :
    ((teardown true 0 1
        { initState with pending := some (2, 300) } []).1.pending = none
      ↔ true = false) :=
  C10_teardown_timer true 0 1 2 300
    { initState with pending := some (2, 300) } [] rfl

end PdfView
